import Mathlib

/-!
Verification of the cache-and-retry component of the Tides and Tomes
repository, shallowly embedded from the Python source:

- presentation/config.py        : the Config constants
- presentation/api_services.py  : APIService (in-memory TTL cache, md5 cache
  keys over sorted-JSON kwargs, HTTP retry loop) and WeatherbitService
- data/connectors/openweather_api.py : OpenWeatherAPI (file cache, fallback
  policy, forecast path)

Machine time is modelled as Int (seconds, the unit the source uses).
Payload dictionaries whose field values never influence control flow are
modelled as tagged constructors recording exactly which source expression
built them.
-/

namespace TidesTomes

/-! ## Config (presentation/config.py) -/

namespace Config

def CACHE_TTL_WEATHER : Int := 1800

def CACHE_TTL_MARINE : Int := 3600

def CACHE_TTL_CLIMATE : Int := 86400

def API_TIMEOUT : Int := 15

def API_RETRY_ATTEMPTS : Nat := 3

def API_RETRY_DELAY : Int := 2

end Config

/-! ## APIService in-memory TTL cache (api_services.py lines 29-57)

`self._cache` and `self._cache_timestamps` are two Python dicts; we model
each as a total function into Option.  `updateFn` is dict assignment and
(with value none) dict deletion. -/

def updateFn {γ : Type} (f : String → γ) (k : String) (v : γ) : String → γ :=
  fun k2 => if k2 = k then v else f k2

structure CacheState (α : Type) where
  cache : String → Option α
  timestamps : String → Option Int

def emptyCache {α : Type} : CacheState α :=
  ⟨fun _ => none, fun _ => none⟩

/-- `_get_cached`: hit while `time.time() - timestamp < ttl`, otherwise the
entry is deleted from both dicts and the call is a miss.  The timestamp
lookup defaults to 0 exactly as `self._cache_timestamps.get(cache_key, 0)`. -/
def getCached {α : Type} (σ : CacheState α) (k : String) (ttl now : Int) :
    Option α × CacheState α :=
  match σ.cache k with
  | some v =>
    if now - ((σ.timestamps k).getD 0) < ttl then (some v, σ)
    else (none, ⟨updateFn σ.cache k none, updateFn σ.timestamps k none⟩)
  | none => (none, σ)

/-- `_set_cached`: store payload and current time under the key. -/
def setCached {α : Type} (σ : CacheState α) (k : String) (v : α) (now : Int) :
    CacheState α :=
  ⟨updateFn σ.cache k (some v), updateFn σ.timestamps k (some now)⟩

/-- A client-visible cache operation of APIService. -/
inductive CacheOp (α : Type) where
  | get (k : String) (ttl now : Int)
  | set (k : String) (v : α) (now : Int)

def applyOp {α : Type} (σ : CacheState α) : CacheOp α → CacheState α
  | .get k ttl now => (getCached σ k ttl now).2
  | .set k v now => setCached σ k v now

def applyOps {α : Type} (ops : List (CacheOp α)) : CacheState α :=
  ops.foldl applyOp emptyCache

/-! ## APIService._make_request (api_services.py lines 59-95)

One iteration of `for attempt in range(config.API_RETRY_ATTEMPTS)`.  The
upstream is a map from the 0-based attempt index to what
`self.session.request` does on that attempt; `raise_for_status` raises
HTTPError exactly for statuses 400-599.  The Python guard
`attempt < config.API_RETRY_ATTEMPTS - 1` holds iff further loop
iterations remain, i.e. iff `0 < remaining` where the current frame holds
`remaining + 1` iterations.  A trace records the returned or raised value,
the argument of each `time.sleep` call in order, and how many attempts
were made. -/

inductive UpOutcome (β : Type) where
  | response (status : Nat) (body : β)
  | timeout
  | netErr
deriving DecidableEq

inductive MRResult (β : Type) where
  | success (body : β)
  | exnTimeout
  | exnServerError
  | exnClientError
  | exnRequestFailed
  | noneReturn
deriving DecidableEq

structure MRTrace (β : Type) where
  result : MRResult β
  delays : List Int
  attempts : Nat
deriving DecidableEq

def makeRequestLoop {β : Type} (d : Int) (up : Nat → UpOutcome β) :
    Nat → Nat → MRTrace β
  | _, 0 => ⟨.noneReturn, [], 0⟩
  | attempt, remaining + 1 =>
    match up attempt with
    | .response s b =>
      if 400 ≤ s ∧ s < 600 then
        if 500 ≤ s then
          if 0 < remaining then
            let t := makeRequestLoop d up (attempt + 1) remaining
            ⟨t.result, d * ((attempt : Int) + 1) :: t.delays, t.attempts + 1⟩
          else ⟨.exnServerError, [], 1⟩
        else ⟨.exnClientError, [], 1⟩
      else ⟨.success b, [], 1⟩
    | .timeout =>
      if 0 < remaining then
        let t := makeRequestLoop d up (attempt + 1) remaining
        ⟨t.result, d * ((attempt : Int) + 1) :: t.delays, t.attempts + 1⟩
      else ⟨.exnTimeout, [], 1⟩
    | .netErr =>
      if 0 < remaining then
        let t := makeRequestLoop d up (attempt + 1) remaining
        ⟨t.result, d * ((attempt : Int) + 1) :: t.delays, t.attempts + 1⟩
      else ⟨.exnRequestFailed, [], 1⟩

def makeRequest {β : Type} (n : Nat) (d : Int) (up : Nat → UpOutcome β) :
    MRTrace β :=
  makeRequestLoop d up 0 n

/-- Every attempt of the upstream fails in a way `_make_request` retries:
a timeout, a connection-level error, or an HTTP 5xx response. -/
def retryableFails {β : Type} (up : Nat → UpOutcome β) : Prop :=
  ∀ i, up i = .timeout ∨ up i = .netErr ∨
    ∃ s b, up i = .response s b ∧ 500 ≤ s ∧ s < 600

/-! ## APIService._get_cache_key (api_services.py lines 35-38)

`json.dumps(kwargs, sort_keys=True)` serialises the keyword-argument dict
with its items sorted by key (Python string order: lexicographic on code
points), using the default separators.  The md5 hexdigest applied to that
string afterwards is a function of the string, so key equality questions
reduce to equality of the serialisation; the claim theorem quantifies over
an arbitrary digest function. -/

inductive JVal where
  | s (v : String)
  | n (v : Int)
deriving DecidableEq

def jvalStr : JVal → String
  | .s v => ("\"") ++ v ++ ("\"")
  | .n v => toString v

def pairStr (p : String × JVal) : String :=
  ("\"") ++ p.1 ++ ("\": ") ++ jvalStr p.2

def jsonDumpsSorted (items : List (String × JVal)) : String :=
  ("\x7b") ++ String.intercalate (", ") (items.map pairStr) ++ ("\x7d")

/-- Lexicographic comparison of code-point sequences, Python string order. -/
def charListLeb : List Char → List Char → Bool
  | [], _ => true
  | _ :: _, [] => false
  | a :: as, b :: bs =>
    if a.toNat < b.toNat then true
    else if a.toNat = b.toNat then charListLeb as bs
    else false

def keyLe (a b : String × JVal) : Prop :=
  charListLeb a.1.data b.1.data = true

/-- Strict version of the key order, used to state uniqueness of the
sorted form when the keys are distinct. -/
def keyLt (a b : String × JVal) : Prop :=
  keyLe a b ∧ a.1 ≠ b.1

instance : DecidableRel keyLe := fun a b =>
  inferInstanceAs (Decidable (charListLeb a.1.data b.1.data = true))

/-- The string `_get_cache_key` feeds into `hashlib.md5`: the kwargs dict
serialised with `sort_keys=True`. -/
def cacheKeyString (kwargs : List (String × JVal)) : String :=
  jsonDumpsSorted (List.insertionSort keyLe kwargs)

/-! ## WeatherbitService.get_current_weather (api_services.py lines 106-145)

The upstream response body is reduced to the two facts the control flow
inspects: whether `'data' in data and len(data['data']) > 0` holds, and an
opaque token standing for the rest of the document.  The result dict the
method builds from `data['data'][0]` is the constructor `fromRaw`. -/

structure WBRaw where
  hasData : Bool
  body : Nat
deriving DecidableEq

inductive WBPayload where
  | fromRaw (raw : WBRaw)
deriving DecidableEq

/-- Exceptions the embedded methods can raise. -/
inductive PyError where
  | keyError
  | apiException
  | attributeError
deriving DecidableEq

def wbCacheKey (city country : String) : String :=
  cacheKeyString [(("city"), JVal.s city), (("country"), JVal.s country)]

/-- `WeatherbitService.get_current_weather`.  Cache lookup (which may
lazily evict an expired entry), then the configured-key guard, then
`_make_request` with the Config retry policy; the parsed result is cached
only on the fully successful path.  `noneReturn` (only reachable with a
zero retry budget) would make `response.json()` fail on None with an
AttributeError. -/
def wbGetCurrentWeather (σ : CacheState WBPayload) (now : Int)
    (city country : String) (apiKey : Option String)
    (up : Nat → UpOutcome WBRaw) :
    Except PyError WBPayload × CacheState WBPayload :=
  let key := wbCacheKey city country
  let r := getCached σ key Config.CACHE_TTL_WEATHER now
  match r.1 with
  | some cached => (.ok cached, r.2)
  | none =>
    match apiKey with
    | none => (.error .apiException, r.2)
    | some _ =>
      match (makeRequest Config.API_RETRY_ATTEMPTS Config.API_RETRY_DELAY up).result with
      | .success raw =>
        if raw.hasData then
          (.ok (.fromRaw raw), setCached r.2 key (.fromRaw raw) now)
        else (.error .apiException, r.2)
      | .noneReturn => (.error .attributeError, r.2)
      | .exnTimeout => (.error .apiException, r.2)
      | .exnServerError => (.error .apiException, r.2)
      | .exnClientError => (.error .apiException, r.2)
      | .exnRequestFailed => (.error .apiException, r.2)

/-! ## OpenWeatherAPI (data/connectors/openweather_api.py)

The file cache under `data/cache` is a map from file name to an entry
holding the mtime and the JSON content (`none` when `json.load` fails).
Payload dicts are tagged by the source expression that builds them:
`_process_weather_data`, `_fallback_data`, `_process_forecast_data`, the
literal error dict of `get_forecast`, or an externally written value.
`_process_weather_data` and `_fallback_data` both index
`self.regions[region]` directly and hence raise KeyError off the five
configured regions; the numeric warehouse-model fields they fill in do
not influence any control flow and are abstracted into the constructor
arguments. -/

inductive OWPayload where
  | processed (raw : Nat) (region : String)
  | fallback (region : String)
  | forecastProcessed (raw : Nat) (region : String)
  | errorDict
  | other (tag : Nat)
deriving DecidableEq

structure FileEntry where
  mtime : Int
  content : Option OWPayload
deriving DecidableEq

abbrev FileCache := String → Option FileEntry

def emptyFileCache : FileCache := fun _ => none

/-- `_read_cache`: None when the file is missing or unparseable. -/
def readCache (c : FileCache) (path : String) : Option OWPayload :=
  match c path with
  | some e => e.content
  | none => none

/-- `_write_cache` plus the resulting fresh mtime. -/
def writeCache (c : FileCache) (path : String) (p : OWPayload) (now : Int) :
    FileCache :=
  fun k => if k = path then some ⟨now, some p⟩ else c k

/-- `_is_cache_valid`: the file exists and its mtime is within the cache
duration. -/
def isCacheValid (c : FileCache) (path : String) (now dur : Int) : Bool :=
  match c path with
  | some e => decide (now - e.mtime < dur)
  | none => false

/-- The leading `if self._is_cache_valid(...): cached = self._read_cache(...);
if cached: return cached` block shared by both fetch methods: a payload is
served without fetching iff the file is fresh and readable. -/
def owFreshHit (c : FileCache) (path : String) (now dur : Int) :
    Option OWPayload :=
  if isCacheValid c path now dur then readCache c path else none

def regionKeys : List String :=
  [("edinburgh"), ("glasgow"), ("islay"), ("aberlour"), ("dufftown")]

/-- `_process_weather_data`: `region_info = self.regions[region]` raises
KeyError off the configured regions; otherwise the enriched dict is
built. -/
def processWeatherData (raw : Nat) (region : String) :
    Except PyError OWPayload :=
  if region ∈ regionKeys then .ok (.processed raw region) else .error .keyError

/-- `_fallback_data`: same direct `self.regions[region]` indexing. -/
def fallbackData (region : String) : Except PyError OWPayload :=
  if region ∈ regionKeys then .ok (.fallback region) else .error .keyError

/-- The `except requests.exceptions.RequestException` branch of
`get_current_weather`: re-read the cache file ignoring its age, else fall
back to `_fallback_data`. -/
def owExceptBranch (c : FileCache) (path region : String) :
    Except PyError OWPayload × FileCache :=
  match readCache c path with
  | some p => (.ok p, c)
  | none =>
    match fallbackData region with
    | .ok p => (.ok p, c)
    | .error e => (.error e, c)

/-- `OpenWeatherAPI.get_current_weather`.  `requests.exceptions.HTTPError`
(raised by `raise_for_status` for statuses 400-599) is a subclass of
`RequestException`, so client errors land in the same fallback branch as
timeouts and connection errors. -/
def owGetCurrentWeather (c : FileCache) (now : Int) (region : String)
    (out : UpOutcome Nat) : Except PyError OWPayload × FileCache :=
  let path := region ++ ("_current")
  match owFreshHit c path now 3600 with
  | some cached => (.ok cached, c)
  | none =>
    match out with
    | .response s raw =>
      if 400 ≤ s ∧ s < 600 then owExceptBranch c path region
      else
        match processWeatherData raw region with
        | .ok p => (.ok p, writeCache c path p now)
        | .error e => (.error e, c)
    | .timeout => owExceptBranch c path region
    | .netErr => owExceptBranch c path region

def owForecastPath (region : String) (days : Nat) : String :=
  region ++ ("_forecast_") ++ (toString days) ++ ("d")

/-- `_process_forecast_data`: also indexes `self.regions[region]`. -/
def processForecastData (raw : Nat) (region : String) :
    Except PyError OWPayload :=
  if region ∈ regionKeys then .ok (.forecastProcessed raw region)
  else .error .keyError

/-- `OpenWeatherAPI.get_forecast`.  The failure branch is
`cached = self._read_cache(cache_path); return cached if cached else
(a dict with an error key)`: stale cache if readable, otherwise the
literal error dict; there is no static fallback payload here. -/
def owGetForecast (c : FileCache) (now : Int) (region : String) (days : Nat)
    (out : UpOutcome Nat) : Except PyError OWPayload × FileCache :=
  let path := owForecastPath region days
  match owFreshHit c path now 10800 with
  | some cached => (.ok cached, c)
  | none =>
    match out with
    | .response s raw =>
      if 400 ≤ s ∧ s < 600 then
        match readCache c path with
        | some p => (.ok p, c)
        | none => (.ok .errorDict, c)
      else
        match processForecastData raw region with
        | .ok p => (.ok p, writeCache c path p now)
        | .error e => (.error e, c)
    | .timeout =>
      match readCache c path with
      | some p => (.ok p, c)
      | none => (.ok .errorDict, c)
    | .netErr =>
      match readCache c path with
      | some p => (.ok p, c)
      | none => (.ok .errorDict, c)

/-- The branch of `UpOutcome` on which the single `requests.get` of the
OpenWeather connector returns without raising. -/
def isOkOut {β : Type} : UpOutcome β → Bool
  | .response s _ => !(decide (400 ≤ s ∧ s < 600))
  | .timeout => false
  | .netErr => false

/-- Both dicts of an `APIService` hold exactly the same keys. -/
def cacheInv {α : Type} (σ : CacheState α) : Prop :=
  ∀ k, (σ.cache k).isSome = (σ.timestamps k).isSome

/-- The sleep sequence `d * start, d * (start + 1), ...` of length `len`:
an arithmetic progression of delays. -/
def linearDelays (d : Int) (start len : Nat) : List Int :=
  (List.range' start len).map (fun i : Nat => d * (i : Int))

/-! ## Theorems -/

/-- C6 (confirmed): after `_set_cached(k, p)` at time `s`, `_get_cached(k, t)`
at time `now` returns exactly `p` when `now - s < t` and a miss (None), not
the stale payload, when `now - s >= t`. -/
theorem cache_put_get_ttl {α : Type} (σ : CacheState α) (k : String) (p : α)
    (s t now : Int) :
    (getCached (setCached σ k p s) k t now).1 =
      if now - s < t then some p else none := by
  simp only [getCached, setCached, updateFn, if_true, eq_self_iff_true,
    Option.getD_some]
  split <;> rfl

theorem cacheInv_applyOp {α : Type} (σ : CacheState α) (op : CacheOp α)
    (h : cacheInv σ) : cacheInv (applyOp σ op) := by
  cases op with
  | get k ttl now =>
    intro k2
    simp only [applyOp, getCached]
    cases hc : σ.cache k with
    | none => exact h k2
    | some v =>
      by_cases hts : now - (σ.timestamps k).getD 0 < ttl
      · simp only [if_pos hts]
        exact h k2
      · simp only [if_neg hts, updateFn]
        by_cases hk : k2 = k
        · simp [hk]
        · simp only [if_neg hk]
          exact h k2
  | set k v now =>
    intro k2
    simp only [applyOp, setCached, updateFn]
    by_cases hk : k2 = k
    · simp [hk]
    · simp only [if_neg hk]
      exact h k2

/-- C9 (confirmed): after any sequence of `_get_cached` and `_set_cached`
operations starting from the empty dicts of `__init__`, the key set of
`_cache` equals the key set of `_cache_timestamps`: `_set_cached` writes
both maps and the expiry eviction in `_get_cached` deletes from both. -/
theorem cache_timestamp_key_sets_agree {α : Type} (ops : List (CacheOp α))
    (k : String) :
    ((applyOps ops).cache k).isSome = ((applyOps ops).timestamps k).isSome := by
  suffices h : cacheInv (applyOps ops) from h k
  unfold applyOps
  have step : ∀ (l : List (CacheOp α)) (σ : CacheState α),
      cacheInv σ → cacheInv (l.foldl applyOp σ) := by
    intro l
    induction l with
    | nil => exact fun σ h => h
    | cons op l ih => exact fun σ h => ih _ (cacheInv_applyOp σ op h)
  exact step ops emptyCache (fun _ => rfl)

theorem makeRequestLoop_step {β : Type} (d : Int) (up : Nat → UpOutcome β)
    (attempt r : Nat) :
    makeRequestLoop d up attempt (r + 1) =
      match up attempt with
      | .response s b =>
        if 400 ≤ s ∧ s < 600 then
          if 500 ≤ s then
            if 0 < r then
              ⟨(makeRequestLoop d up (attempt + 1) r).result,
                d * ((attempt : Int) + 1) ::
                  (makeRequestLoop d up (attempt + 1) r).delays,
                (makeRequestLoop d up (attempt + 1) r).attempts + 1⟩
            else ⟨.exnServerError, [], 1⟩
          else ⟨.exnClientError, [], 1⟩
        else ⟨.success b, [], 1⟩
      | .timeout =>
        if 0 < r then
          ⟨(makeRequestLoop d up (attempt + 1) r).result,
            d * ((attempt : Int) + 1) ::
              (makeRequestLoop d up (attempt + 1) r).delays,
            (makeRequestLoop d up (attempt + 1) r).attempts + 1⟩
        else ⟨.exnTimeout, [], 1⟩
      | .netErr =>
        if 0 < r then
          ⟨(makeRequestLoop d up (attempt + 1) r).result,
            d * ((attempt : Int) + 1) ::
              (makeRequestLoop d up (attempt + 1) r).delays,
            (makeRequestLoop d up (attempt + 1) r).attempts + 1⟩
        else ⟨.exnRequestFailed, [], 1⟩ := rfl

theorem makeRequestLoop_timeout {β : Type} (d : Int) (r : Nat) :
    ∀ attempt : Nat,
      (makeRequestLoop d (fun _ => (UpOutcome.timeout : UpOutcome β))
          attempt (r + 1)).result = .exnTimeout ∧
      (makeRequestLoop d (fun _ => (UpOutcome.timeout : UpOutcome β))
          attempt (r + 1)).attempts = r + 1 := by
  induction r with
  | zero => intro attempt; exact ⟨rfl, rfl⟩
  | succ r ih =>
    intro attempt
    have h := ih (attempt + 1)
    rw [makeRequestLoop_step]
    simp only [if_pos (Nat.succ_pos r)]
    exact ⟨h.1, by rw [h.2]⟩

/-- C3 (confirmed): with `max_attempts = n >= 1` and an upstream that times
out on every attempt, `_make_request` performs exactly `n` attempts and then
raises the timeout `APIException` rather than returning a payload. -/
theorem retry_bound_exact {β : Type} (n : Nat) (d : Int) (hn : 1 ≤ n) :
    (makeRequest n d (fun _ => (UpOutcome.timeout : UpOutcome β))).result =
        .exnTimeout ∧
    (makeRequest n d (fun _ => (UpOutcome.timeout : UpOutcome β))).attempts =
        n := by
  obtain ⟨m, rfl⟩ : ∃ m, n = m + 1 :=
    ⟨n - 1, (Nat.succ_pred_eq_of_pos hn).symm⟩
  exact makeRequestLoop_timeout d m 0

/-- C3 witness at the configured retry policy. -/
theorem retry_bound_exact_witness :
    1 ≤ Config.API_RETRY_ATTEMPTS ∧
      ((makeRequest Config.API_RETRY_ATTEMPTS Config.API_RETRY_DELAY
            (fun _ => (UpOutcome.timeout : UpOutcome Nat))).result =
          .exnTimeout ∧
        (makeRequest Config.API_RETRY_ATTEMPTS Config.API_RETRY_DELAY
            (fun _ => (UpOutcome.timeout : UpOutcome Nat))).attempts =
          Config.API_RETRY_ATTEMPTS) :=
  ⟨by decide,
    retry_bound_exact Config.API_RETRY_ATTEMPTS Config.API_RETRY_DELAY
      (by decide)⟩

theorem makeRequest_clientError {β : Type} (n : Nat) (d : Int)
    (up : Nat → UpOutcome β) (c : Nat) (b : β) (hn : 1 ≤ n)
    (h0 : up 0 = .response c b) (h4 : 400 ≤ c) (h5 : c < 500) :
    makeRequest n d up = ⟨.exnClientError, [], 1⟩ := by
  obtain ⟨m, rfl⟩ : ∃ m, n = m + 1 :=
    ⟨n - 1, (Nat.succ_pred_eq_of_pos hn).symm⟩
  have h6 : c < 600 := lt_trans h5 (by norm_num)
  have h45 : ¬ 500 ≤ c := by omega
  simp only [makeRequest, makeRequestLoop, h0]
  rw [if_pos ⟨h4, h6⟩, if_neg h45]

/-- C4 (confirmed): on an HTTP 4xx first response, `_make_request` performs
exactly one attempt and raises the client-error `APIException` immediately,
with no `time.sleep` call. -/
theorem client_error_single_attempt {β : Type} (n : Nat) (d : Int)
    (up : Nat → UpOutcome β) (c : Nat) (b : β) (hn : 1 ≤ n)
    (h0 : up 0 = .response c b) (h4 : 400 ≤ c) (h5 : c < 500) :
    makeRequest n d up = ⟨.exnClientError, [], 1⟩ :=
  makeRequest_clientError n d up c b hn h0 h4 h5

/-- C4 witness: a 401 response under the configured retry policy. -/
theorem client_error_single_attempt_witness :
    1 ≤ Config.API_RETRY_ATTEMPTS ∧
      makeRequest Config.API_RETRY_ATTEMPTS Config.API_RETRY_DELAY
          (fun _ => UpOutcome.response 401 (0 : Nat)) =
        ⟨.exnClientError, [], 1⟩ :=
  ⟨by decide,
    client_error_single_attempt Config.API_RETRY_ATTEMPTS
      Config.API_RETRY_DELAY (fun _ => UpOutcome.response 401 (0 : Nat))
      401 0 (by decide) rfl (by decide) (by decide)⟩

theorem makeRequestLoop_retry_delays {β : Type} (d : Int)
    (up : Nat → UpOutcome β) (hup : retryableFails up) (r : Nat) :
    ∀ attempt : Nat,
      (makeRequestLoop d up attempt (r + 1)).delays =
        linearDelays d (attempt + 1) r := by
  induction r with
  | zero =>
    intro attempt
    rcases hup attempt with h | h | ⟨s, b, h, h5, h6⟩
    · rw [makeRequestLoop_step, h]
      rfl
    · rw [makeRequestLoop_step, h]
      rfl
    · have h4 : 400 ≤ s := le_trans (by norm_num) h5
      rw [makeRequestLoop_step, h]
      simp only [if_pos (And.intro h4 h6), if_pos h5, lt_irrefl, if_neg]
      rfl
  | succ r ih =>
    intro attempt
    have hrec : (makeRequestLoop d up (attempt + 1) (r + 1)).delays =
        linearDelays d (attempt + 2) r := ih (attempt + 1)
    have hcast : d * ((attempt : Int) + 1) = d * ((attempt + 1 : Nat) : Int) := by
      push_cast
      ring
    have hrange : linearDelays d (attempt + 1) (r + 1) =
        d * ((attempt + 1 : Nat) : Int) :: linearDelays d (attempt + 2) r := by
      unfold linearDelays
      rw [List.range'_succ, List.map_cons]
    rcases hup attempt with h | h | ⟨s, b, h, h5, h6⟩
    · rw [makeRequestLoop_step, h]
      simp only [if_pos (Nat.succ_pos r)]
      rw [hrange, ← hrec, ← hcast]
    · rw [makeRequestLoop_step, h]
      simp only [if_pos (Nat.succ_pos r)]
      rw [hrange, ← hrec, ← hcast]
    · have h4 : 400 ≤ s := le_trans (by norm_num) h5
      rw [makeRequestLoop_step, h]
      simp only [if_pos (And.intro h4 h6), if_pos h5, if_pos (Nat.succ_pos r)]
      rw [hrange, ← hrec, ← hcast]

/-- C1 (amended, theorem): the inter-attempt delays of `_make_request` for a
run of retryable failures (timeouts, connection errors or 5xx responses)
grow linearly, not geometrically: the wait after the i-th failed attempt
(1-indexed) is `API_RETRY_DELAY * i`, i.e. the source sleeps
`config.API_RETRY_DELAY * (attempt + 1)` with a 0-based attempt counter. -/
theorem retry_backoff_linear {β : Type} (n : Nat) (d : Int)
    (up : Nat → UpOutcome β) (hup : retryableFails up) :
    (makeRequest n d up).delays = linearDelays d 1 (n - 1) := by
  cases n with
  | zero => rfl
  | succ m => exact makeRequestLoop_retry_delays d up hup m 0

/-- C1 witness: three consecutive timeouts under the configured policy wait
2 then 4 seconds. -/
theorem retry_backoff_linear_witness :
    retryableFails (fun _ => (UpOutcome.timeout : UpOutcome Nat)) ∧
      (makeRequest Config.API_RETRY_ATTEMPTS Config.API_RETRY_DELAY
          (fun _ => (UpOutcome.timeout : UpOutcome Nat))).delays = [2, 4] :=
  ⟨fun _ => Or.inl rfl,
    (retry_backoff_linear Config.API_RETRY_ATTEMPTS Config.API_RETRY_DELAY
        (fun _ => (UpOutcome.timeout : UpOutcome Nat))
        (fun _ => Or.inl rfl)).trans (by decide)⟩

/-- C1 (counterexample): with four total attempts and the configured base
delay of 2, four consecutive timeouts produce the delay sequence
`[2, 4, 6]`, which is not `base * multiplier ^ (i - 1)` for any choice of
base and multiplier: the sequence is arithmetic, not geometric. -/
theorem retry_backoff_not_geometric_cex :
    (makeRequest 4 2 (fun _ => (UpOutcome.timeout : UpOutcome Nat))).delays =
        [2, 4, 6] ∧
      ¬ ∃ base m : ℚ, ∀ i : Nat, i < 3 →
        ((((makeRequest 4 2 (fun _ => (UpOutcome.timeout : UpOutcome Nat))).delays.getD
            i 0 : Int) : ℚ) = base * m ^ i) := by
  refine ⟨by decide, ?_⟩
  rintro ⟨base, m, h⟩
  have hd : (makeRequest 4 2
      (fun _ => (UpOutcome.timeout : UpOutcome Nat))).delays = [2, 4, 6] := by
    decide
  have h0 := h 0 (by norm_num)
  have h1 := h 1 (by norm_num)
  have h2 := h 2 (by norm_num)
  rw [hd] at h0 h1 h2
  simp only [List.getD_cons_zero, List.getD_cons_succ, pow_zero, pow_one,
    pow_two] at h0 h1 h2
  norm_num at h0 h1 h2
  subst h0
  have hm : m = 2 := by linarith
  rw [hm] at h2
  norm_num at h2

theorem charListLeb_cons_iff (x y : Char) (xs ys : List Char) :
    charListLeb (x :: xs) (y :: ys) = true ↔
      x.toNat < y.toNat ∨ (x.toNat = y.toNat ∧ charListLeb xs ys = true) := by
  by_cases h : x.toNat < y.toNat
  · simp [charListLeb, h]
  · by_cases h2 : x.toNat = y.toNat
    · simp [charListLeb, h, h2]
    · simp [charListLeb, h, h2]

theorem charListLeb_total : ∀ a b : List Char,
    charListLeb a b = true ∨ charListLeb b a = true := by
  intro a
  induction a with
  | nil => intro b; left; rfl
  | cons x xs ih =>
    intro b
    cases b with
    | nil => right; rfl
    | cons y ys =>
      rcases lt_trichotomy x.toNat y.toNat with h | h | h
      · left
        rw [charListLeb_cons_iff]
        exact Or.inl h
      · rcases ih ys with h2 | h2
        · left
          rw [charListLeb_cons_iff]
          exact Or.inr ⟨h, h2⟩
        · right
          rw [charListLeb_cons_iff]
          exact Or.inr ⟨h.symm, h2⟩
      · right
        rw [charListLeb_cons_iff]
        exact Or.inl h

theorem charListLeb_trans : ∀ a b c : List Char,
    charListLeb a b = true → charListLeb b c = true →
      charListLeb a c = true := by
  intro a
  induction a with
  | nil => intro b c _ _; rfl
  | cons x xs ih =>
    intro b c hab hbc
    cases b with
    | nil => simp [charListLeb] at hab
    | cons y ys =>
      cases c with
      | nil => simp [charListLeb] at hbc
      | cons z zs =>
        rw [charListLeb_cons_iff] at hab hbc ⊢
        rcases hab with h | ⟨h, hr⟩ <;> rcases hbc with h2 | ⟨h2, hr2⟩
        · exact Or.inl (lt_trans h h2)
        · exact Or.inl (h2 ▸ h)
        · exact Or.inl (h ▸ h2)
        · exact Or.inr ⟨h.trans h2, ih ys zs hr hr2⟩

theorem charListLeb_antisymm : ∀ a b : List Char,
    charListLeb a b = true → charListLeb b a = true → a = b := by
  intro a
  induction a with
  | nil =>
    intro b _ hba
    cases b with
    | nil => rfl
    | cons y ys => simp [charListLeb] at hba
  | cons x xs ih =>
    intro b hab hba
    cases b with
    | nil => simp [charListLeb] at hab
    | cons y ys =>
      rw [charListLeb_cons_iff] at hab hba
      rcases hab with h | ⟨h, hr⟩
      · rcases hba with h2 | ⟨h2, _⟩
        · exact absurd (lt_trans h h2) (lt_irrefl _)
        · exact absurd (h2 ▸ h) (lt_irrefl _)
      · rcases hba with h2 | ⟨h2, hr2⟩
        · exact absurd (h ▸ h2) (lt_irrefl _)
        · have hxy : x = y := by
            have h3 := congrArg Char.ofNat h
            rwa [Char.ofNat_toNat, Char.ofNat_toNat] at h3
          rw [hxy, ih ys hr hr2]

instance : IsTotal (String × JVal) keyLe :=
  ⟨fun a b => charListLeb_total a.1.data b.1.data⟩

instance : IsTrans (String × JVal) keyLe :=
  ⟨fun a b c => charListLeb_trans a.1.data b.1.data c.1.data⟩

theorem string_eq_of_keyLe_antisymm {a b : String × JVal}
    (h1 : keyLe a b) (h2 : keyLe b a) : a.1 = b.1 := by
  have hd : a.1.data = b.1.data := charListLeb_antisymm _ _ h1 h2
  exact String.ext hd

instance : IsAntisymm (String × JVal) keyLt :=
  ⟨fun _ _ h1 h2 =>
    False.elim (h1.2 (string_eq_of_keyLe_antisymm h1.1 h2.1))⟩

theorem sorted_keyLt_of_sorted_keyLe {L : List (String × JVal)}
    (hs : List.Sorted keyLe L) (hn : (L.map Prod.fst).Nodup) :
    List.Sorted keyLt L := by
  have hne : L.Pairwise (fun a b => a.1 ≠ b.1) := List.pairwise_map.mp hn
  exact (hs.and hne).imp (fun h => ⟨h.1, h.2⟩)

/-- C8 (confirmed): `_get_cache_key` is deterministic and insensitive to the
order in which the keyword arguments are supplied: for any two kwargs lists
with the same (duplicate-free, as Python keyword arguments are) key-value
pairs, the sorted-JSON canonical string `json.dumps(kwargs, sort_keys=True)`
is identical, hence so is any digest (such as the md5 hexdigest) of it. -/
theorem cache_key_order_insensitive (digest : String → String)
    (k1 k2 : List (String × JVal)) (hn : (k1.map Prod.fst).Nodup)
    (hp : k1.Perm k2) :
    digest (cacheKeyString k1) = digest (cacheKeyString k2) := by
  have p1 : (List.insertionSort keyLe k1).Perm k1 :=
    List.perm_insertionSort keyLe k1
  have p2 : (List.insertionSort keyLe k2).Perm k2 :=
    List.perm_insertionSort keyLe k2
  have p12 : (List.insertionSort keyLe k1).Perm (List.insertionSort keyLe k2) :=
    (p1.trans hp).trans p2.symm
  have hn2 : (k2.map Prod.fst).Nodup := ((hp.map Prod.fst).nodup_iff).mp hn
  have hns1 : ((List.insertionSort keyLe k1).map Prod.fst).Nodup :=
    ((p1.map Prod.fst).nodup_iff).mpr hn
  have hns2 : ((List.insertionSort keyLe k2).map Prod.fst).Nodup :=
    ((p2.map Prod.fst).nodup_iff).mpr hn2
  have hsort : List.insertionSort keyLe k1 = List.insertionSort keyLe k2 :=
    List.eq_of_perm_of_sorted p12
      (sorted_keyLt_of_sorted_keyLe (List.sorted_insertionSort keyLe k1) hns1)
      (sorted_keyLt_of_sorted_keyLe (List.sorted_insertionSort keyLe k2) hns2)
  unfold cacheKeyString
  rw [hsort]

/-- C8 witness: the two argument orders of the Weatherbit call produce the
same canonical key string. -/
theorem cache_key_order_insensitive_witness :
    (([(("city"), JVal.s ("Edinburgh")), (("country"), JVal.s ("GB"))].map
        Prod.fst).Nodup ∧
      List.Perm [(("city"), JVal.s ("Edinburgh")), (("country"), JVal.s ("GB"))]
        [(("country"), JVal.s ("GB")), (("city"), JVal.s ("Edinburgh"))]) ∧
    cacheKeyString [(("city"), JVal.s ("Edinburgh")), (("country"), JVal.s ("GB"))] =
      cacheKeyString [(("country"), JVal.s ("GB")), (("city"), JVal.s ("Edinburgh"))] :=
  ⟨⟨by decide, by decide⟩,
    cache_key_order_insensitive id
      [(("city"), JVal.s ("Edinburgh")), (("country"), JVal.s ("GB"))]
      [(("country"), JVal.s ("GB")), (("city"), JVal.s ("Edinburgh"))]
      (by decide) (by decide)⟩

theorem owExceptBranch_fst (c : FileCache) (path region : String)
    (hr : region ∈ regionKeys) :
    (owExceptBranch c path region).1 =
      .ok ((readCache c path).getD (.fallback region)) := by
  unfold owExceptBranch
  cases hrc : readCache c path with
  | some p => simp
  | none => simp [fallbackData, hr]

theorem owExceptBranch_snd (c : FileCache) (path region : String) :
    (owExceptBranch c path region).2 = c := by
  unfold owExceptBranch
  cases readCache c path with
  | some p => rfl
  | none =>
    cases fallbackData region with
    | ok p => rfl
    | error e => rfl

theorem getCached_state {α : Type} (σ : CacheState α) (k : String)
    (ttl now : Int) (k2 : String) :
    ((getCached σ k ttl now).2).cache k2 = σ.cache k2 ∨
      ((getCached σ k ttl now).2).cache k2 = none := by
  unfold getCached
  cases hc : σ.cache k with
  | none => exact Or.inl rfl
  | some v =>
    by_cases hts : now - ((σ.timestamps k).getD 0) < ttl
    · simp only [if_pos hts]
      exact Or.inl trivial
    · simp only [if_neg hts, updateFn]
      by_cases hk : k2 = k
      · simp only [if_pos hk]
        exact Or.inr trivial
      · simp only [if_neg hk]
        exact Or.inl trivial

/-- C10 (confirmed): calling `OpenWeatherAPI.get_current_weather` with a
region outside the five configured ones (and no cache file for it, which
the connector itself can never have written) raises KeyError instead of
returning a payload, for every upstream behaviour: the coordinate lookup
defaults to Edinburgh via `regions.get`, but both `_process_weather_data`
and `_fallback_data` index `self.regions[region]` directly. -/
theorem unknown_region_keyerror (c : FileCache) (now : Int) (region : String)
    (out : UpOutcome Nat) (hreg : region ∉ regionKeys)
    (hc : c (region ++ ("_current")) = none) :
    (owGetCurrentWeather c now region out).1 = .error .keyError := by
  have hread : readCache c (region ++ ("_current")) = none := by
    simp [readCache, hc]
  have hfresh : owFreshHit c (region ++ ("_current")) now 3600 = none := by
    simp [owFreshHit, isCacheValid, hc]
  have hexc : owExceptBranch c (region ++ ("_current")) region =
      (.error .keyError, c) := by
    simp [owExceptBranch, hread, fallbackData, hreg]
  cases out with
  | response s raw =>
    simp only [owGetCurrentWeather, hfresh]
    by_cases hs : 400 ≤ s ∧ s < 600
    · rw [if_pos hs, hexc]
    · rw [if_neg hs]
      simp [processWeatherData, hreg]
  | timeout =>
    simp only [owGetCurrentWeather, hfresh]
    rw [hexc]
  | netErr =>
    simp only [owGetCurrentWeather, hfresh]
    rw [hexc]

/-- C10 witness: the unknown region string misses the regions dict and no
cache file exists in a fresh cache directory. -/
theorem unknown_region_keyerror_witness :
    (("london") ∉ regionKeys ∧
      emptyFileCache (("london") ++ ("_current")) = none) ∧
    (owGetCurrentWeather emptyFileCache 0 ("london") UpOutcome.timeout).1 =
      .error .keyError :=
  ⟨⟨by decide, rfl⟩,
    unknown_region_keyerror emptyFileCache 0 ("london") UpOutcome.timeout
      (by decide) rfl⟩

/-- C2 (counterexample): a 401 client error from the upstream, with no
cache file present, is silently replaced by the static fallback payload by
`OpenWeatherAPI.get_current_weather` rather than surfaced as a hard
failure: `raise_for_status` raises `HTTPError`, a subclass of the caught
`RequestException`, so a 4xx lands in the fallback branch. -/
theorem client_error_fallback_cex :
    owGetCurrentWeather emptyFileCache 0 ("edinburgh")
        (UpOutcome.response 401 0) =
      (.ok (.fallback ("edinburgh")), emptyFileCache) := rfl

/-- C2 (amended, theorem): a 4xx response is surfaced immediately as a hard
`APIException` by clients of `APIService._make_request` such as
`WeatherbitService.get_current_weather`; `OpenWeatherAPI.get_current_weather`
however, issuing `requests.get` directly and catching every
`RequestException` (which includes the `HTTPError` raised for 4xx),
silently substitutes the stale cache file if readable and the static
fallback payload otherwise. -/
theorem client_error_propagation_amended
    (σ : CacheState WBPayload) (now : Int) (city country ak : String)
    (up : Nat → UpOutcome WBRaw) (c0 : Nat) (b : WBRaw)
    (hmiss : (getCached σ (wbCacheKey city country)
        Config.CACHE_TTL_WEATHER now).1 = none)
    (h0 : up 0 = .response c0 b) (h4 : 400 ≤ c0) (h5 : c0 < 500)
    (fc : FileCache) (now2 : Int) (region : String) (s raw : Nat)
    (hreg : region ∈ regionKeys) (hs4 : 400 ≤ s) (hs5 : s < 500)
    (hfresh : owFreshHit fc (region ++ ("_current")) now2 3600 = none) :
    (wbGetCurrentWeather σ now city country (some ak) up).1 =
        .error .apiException ∧
    (owGetCurrentWeather fc now2 region (.response s raw)).1 =
      .ok ((readCache fc (region ++ ("_current"))).getD (.fallback region)) := by
  constructor
  · have hmr : makeRequest Config.API_RETRY_ATTEMPTS Config.API_RETRY_DELAY up =
        ⟨.exnClientError, [], 1⟩ :=
      makeRequest_clientError Config.API_RETRY_ATTEMPTS Config.API_RETRY_DELAY
        up c0 b (by decide) h0 h4 h5
    simp only [wbGetCurrentWeather, hmiss, hmr]
  · have hs6 : s < 600 := lt_trans hs5 (by norm_num)
    simp only [owGetCurrentWeather, hfresh]
    rw [if_pos (And.intro hs4 hs6)]
    exact owExceptBranch_fst fc (region ++ ("_current")) region hreg

/-- C2 witness: a 401 against both connectors, with empty caches. -/
theorem client_error_propagation_amended_witness :
    ((getCached (emptyCache (α := WBPayload))
          (wbCacheKey ("Edinburgh") ("GB")) Config.CACHE_TTL_WEATHER 0).1 =
        none ∧
      (400 ≤ 401 ∧ 401 < 500) ∧
      (("edinburgh") ∈ regionKeys ∧
        owFreshHit emptyFileCache (("edinburgh") ++ ("_current")) 0 3600 =
          none)) ∧
    ((wbGetCurrentWeather emptyCache 0 ("Edinburgh") ("GB") (some ("k"))
          (fun _ => UpOutcome.response 401 ⟨true, 0⟩)).1 =
        .error .apiException ∧
      (owGetCurrentWeather emptyFileCache 0 ("edinburgh")
            (UpOutcome.response 401 0)).1 =
        .ok ((readCache emptyFileCache (("edinburgh") ++ ("_current"))).getD
          (.fallback ("edinburgh")))) :=
  ⟨⟨rfl, ⟨by decide, by decide⟩, ⟨by decide, rfl⟩⟩,
    client_error_propagation_amended emptyCache 0 ("Edinburgh") ("GB") ("k")
      (fun _ => UpOutcome.response 401 ⟨true, 0⟩) 401 ⟨true, 0⟩ rfl rfl
      (by decide) (by decide) emptyFileCache 0 ("edinburgh") 401 0
      (by decide) (by decide) (by decide) rfl⟩

/-- C5 (counterexample): when the fresh fetch of `get_forecast` fails and no
cache file exists, the caller receives the literal error dict, not a
statically-defined fallback payload: no static fallback exists for
forecasts, refuting the claim that every cached-fetch operation of the
connector returns stale-cache-else-static-fallback. -/
theorem forecast_error_dict_cex :
    owGetForecast emptyFileCache 0 ("edinburgh") 5 UpOutcome.timeout =
      (.ok .errorDict, emptyFileCache) := rfl

/-- C5 (amended, theorem): on a failed fresh fetch,
`OpenWeatherAPI.get_current_weather` returns the stale cache file if
readable and otherwise the static fallback payload (never an error for a
configured region), but `OpenWeatherAPI.get_forecast` returns the stale
cache file if readable and otherwise the literal error dict
`(a dict with key error)` — no static fallback payload exists for
forecasts. -/
theorem fallback_policy_amended
    (c1 : FileCache) (n1 : Int) (r1 : String) (o1 : UpOutcome Nat)
    (hr1 : r1 ∈ regionKeys) (hf1 : isOkOut o1 = false)
    (hh1 : owFreshHit c1 (r1 ++ ("_current")) n1 3600 = none)
    (c2 : FileCache) (n2 : Int) (r2 : String) (d2 : Nat) (o2 : UpOutcome Nat)
    (hf2 : isOkOut o2 = false)
    (hh2 : owFreshHit c2 (owForecastPath r2 d2) n2 10800 = none) :
    (owGetCurrentWeather c1 n1 r1 o1).1 =
      .ok ((readCache c1 (r1 ++ ("_current"))).getD (.fallback r1)) ∧
    (owGetForecast c2 n2 r2 d2 o2).1 =
      .ok ((readCache c2 (owForecastPath r2 d2)).getD .errorDict) := by
  constructor
  · cases o1 with
    | response s raw =>
      have hs : 400 ≤ s ∧ s < 600 := by simpa [isOkOut] using hf1
      simp only [owGetCurrentWeather, hh1]
      rw [if_pos hs]
      exact owExceptBranch_fst c1 (r1 ++ ("_current")) r1 hr1
    | timeout =>
      simp only [owGetCurrentWeather, hh1]
      exact owExceptBranch_fst c1 (r1 ++ ("_current")) r1 hr1
    | netErr =>
      simp only [owGetCurrentWeather, hh1]
      exact owExceptBranch_fst c1 (r1 ++ ("_current")) r1 hr1
  · cases o2 with
    | response s raw =>
      have hs : 400 ≤ s ∧ s < 600 := by simpa [isOkOut] using hf2
      simp only [owGetForecast, hh2]
      rw [if_pos hs]
      cases hrc : readCache c2 (owForecastPath r2 d2) with
      | some p => simp [hrc]
      | none => simp [hrc]
    | timeout =>
      simp only [owGetForecast, hh2]
      cases hrc : readCache c2 (owForecastPath r2 d2) with
      | some p => simp [hrc]
      | none => simp [hrc]
    | netErr =>
      simp only [owGetForecast, hh2]
      cases hrc : readCache c2 (owForecastPath r2 d2) with
      | some p => simp [hrc]
      | none => simp [hrc]

/-- C5 witness: a timeout against both fetch operations with a stale,
readable cache file present for the current-weather path and none for the
forecast path. -/
theorem fallback_policy_amended_witness :
    ((("edinburgh") ∈ regionKeys ∧
        isOkOut (UpOutcome.timeout (β := Nat)) = false ∧
        owFreshHit (fun _ => some ⟨-9000, some (.other 7)⟩)
            (("edinburgh") ++ ("_current")) 0 3600 = none) ∧
      (isOkOut (UpOutcome.timeout (β := Nat)) = false ∧
        owFreshHit emptyFileCache (owForecastPath ("edinburgh") 5) 0 10800 =
          none)) ∧
    ((owGetCurrentWeather (fun _ => some ⟨-9000, some (.other 7)⟩) 0
          ("edinburgh") UpOutcome.timeout).1 = .ok (.other 7) ∧
      (owGetForecast emptyFileCache 0 ("edinburgh") 5 UpOutcome.timeout).1 =
        .ok .errorDict) :=
  ⟨⟨⟨by decide, rfl, by decide⟩, ⟨rfl, rfl⟩⟩,
    ⟨(fallback_policy_amended (fun _ => some ⟨-9000, some (.other 7)⟩) 0
          ("edinburgh") UpOutcome.timeout (by decide) rfl (by decide)
          emptyFileCache 0 ("edinburgh") 5 UpOutcome.timeout rfl rfl).1.trans
        rfl,
      (fallback_policy_amended (fun _ => some ⟨-9000, some (.other 7)⟩) 0
          ("edinburgh") UpOutcome.timeout (by decide) rfl (by decide)
          emptyFileCache 0 ("edinburgh") 5 UpOutcome.timeout rfl rfl).2.trans
        rfl⟩⟩

/-- C7 (confirmed): failures are never stored in the cache.  For
`WeatherbitService.get_current_weather`, an error outcome leaves every
in-memory cache entry either as it was or (only for the looked-up key)
lazily evicted because its TTL had already expired — no payload is ever
written.  For `OpenWeatherAPI.get_current_weather`, any upstream outcome on
which `requests.get` raises leaves the file cache exactly unchanged:
`_write_cache` runs only after a fully successful fetch and parse. -/
theorem no_negative_caching :
    (∀ (σ : CacheState WBPayload) (now : Int) (city country : String)
        (apiKey : Option String) (up : Nat → UpOutcome WBRaw) (e : PyError),
      (wbGetCurrentWeather σ now city country apiKey up).1 = .error e →
      ∀ k, ((wbGetCurrentWeather σ now city country apiKey up).2).cache k =
          σ.cache k ∨
        ((wbGetCurrentWeather σ now city country apiKey up).2).cache k =
          none) ∧
    (∀ (c : FileCache) (now : Int) (region : String) (out : UpOutcome Nat),
      isOkOut out = false → (owGetCurrentWeather c now region out).2 = c) := by
  constructor
  · intro σ now city country apiKey up e herr k
    have hstate := getCached_state σ (wbCacheKey city country)
      Config.CACHE_TTL_WEATHER now k
    revert herr
    simp only [wbGetCurrentWeather]
    cases hro : (getCached σ (wbCacheKey city country)
        Config.CACHE_TTL_WEATHER now).1 with
    | some cached => simp
    | none =>
      cases apiKey with
      | none =>
        intro _
        simpa using hstate
      | some ak =>
        cases hmr : (makeRequest Config.API_RETRY_ATTEMPTS
            Config.API_RETRY_DELAY up).result with
        | success raw =>
          by_cases hd : raw.hasData
          · simp [hd]
          · simp only [hd, if_neg]
            intro _
            simpa using hstate
        | exnTimeout =>
          intro _
          simpa using hstate
        | exnServerError =>
          intro _
          simpa using hstate
        | exnClientError =>
          intro _
          simpa using hstate
        | exnRequestFailed =>
          intro _
          simpa using hstate
        | noneReturn =>
          intro _
          simpa using hstate
  · intro c now region out hout
    cases hfh : owFreshHit c (region ++ ("_current")) now 3600 with
    | some p => simp [owGetCurrentWeather, hfh]
    | none =>
      cases out with
      | response s raw =>
        have hs : 400 ≤ s ∧ s < 600 := by simpa [isOkOut] using hout
        simp only [owGetCurrentWeather, hfh]
        rw [if_pos hs]
        exact owExceptBranch_snd c (region ++ ("_current")) region
      | timeout =>
        simp only [owGetCurrentWeather, hfh]
        exact owExceptBranch_snd c (region ++ ("_current")) region
      | netErr =>
        simp only [owGetCurrentWeather, hfh]
        exact owExceptBranch_snd c (region ++ ("_current")) region

/-- C7 witness: a missing API key on the Weatherbit side and a timeout on
the OpenWeather side both leave the (empty) caches untouched. -/
theorem no_negative_caching_witness :
    ((wbGetCurrentWeather (emptyCache (α := WBPayload)) 0 ("Edinburgh")
          ("GB") none (fun _ => UpOutcome.timeout)).1 =
        .error .apiException ∧
      isOkOut (UpOutcome.timeout (β := Nat)) = false) ∧
    (((wbGetCurrentWeather emptyCache 0 ("Edinburgh") ("GB") none
          (fun _ => UpOutcome.timeout)).2).cache ("k") =
        (emptyCache (α := WBPayload)).cache ("k") ∨
      ((wbGetCurrentWeather emptyCache 0 ("Edinburgh") ("GB") none
          (fun _ => UpOutcome.timeout)).2).cache ("k") = none) ∧
    (owGetCurrentWeather emptyFileCache 0 ("edinburgh")
        UpOutcome.timeout).2 = emptyFileCache :=
  ⟨⟨rfl, rfl⟩,
    (no_negative_caching).1 emptyCache 0 ("Edinburgh") ("GB") none
      (fun _ => UpOutcome.timeout) .apiException rfl ("k"),
    (no_negative_caching).2 emptyFileCache 0 ("edinburgh")
      UpOutcome.timeout rfl⟩

end TidesTomes
